import Mathlib

/-!
Shallow embedding of the trading-session scheduler in
SniperScannerChartink.py: the planner get_next_run_time (lines 164-227),
the session-calendar check is_trading_day (lines 160-162) and the
scheduler loop main_loop (lines 229-272).

An Instant is a timezone-aware point in time already normalized to IST
(the planner normalizes its argument first, so every comparison in the
source happens between IST datetimes).  It is modelled as an absolute
day index plus time-of-day fields; day index 0 is chosen to be a
Monday, so the Python weekday() of an instant (Monday = 0 .. Sunday = 6)
is its day index mod 7.  Comparison of valid same-zone datetimes in
Python agrees with comparison of their total microsecond counts, which
is how instants are compared here.
-/

/-- A timezone-aware point in time, normalized to IST.  Field days is an
absolute day index with day 0 a Monday, so weekday equals days % 7. -/
structure Instant where
  days : Nat
  hour : Nat
  minute : Nat
  second : Nat
  microsecond : Nat
deriving DecidableEq

/-- Validity of the time-of-day fields: the ranges a Python datetime can
hold.  Every datetime the source manipulates satisfies this. -/
def Instant.Valid (t : Instant) : Prop :=
  t.hour < 24 ∧ t.minute < 60 ∧ t.second < 60 ∧ t.microsecond < 1000000

instance (t : Instant) : Decidable t.Valid :=
  inferInstanceAs (Decidable (t.hour < 24 ∧ t.minute < 60 ∧ t.second < 60 ∧
    t.microsecond < 1000000))

/-- Total microseconds since the epoch (day 0, midnight).  For valid
instants, Python datetime comparison agrees with comparison of this
count. -/
def Instant.toMicros (t : Instant) : Nat :=
  (((t.days * 24 + t.hour) * 60 + t.minute) * 60 + t.second) * 1000000 +
    t.microsecond

/-- Python datetime.replace(hour=h, minute=m, second=0, microsecond=0):
same calendar date, time-of-day replaced. -/
def Instant.replaceTime (t : Instant) (h m : Nat) : Instant :=
  { t with hour := h, minute := m, second := 0, microsecond := 0 }

/-- Python now + datetime.timedelta(days=n): same time of day, n days
later. -/
def Instant.addDays (t : Instant) (n : Nat) : Instant :=
  { t with days := t.days + n }

/-- Python t - datetime.timedelta(seconds=1) for a valid instant:
borrow through minute, hour and day; the microsecond field is
untouched. -/
def Instant.subOneSecond (t : Instant) : Instant :=
  if 0 < t.second then { t with second := t.second - 1 }
  else if 0 < t.minute then { t with minute := t.minute - 1, second := 59 }
  else if 0 < t.hour then
    { t with hour := t.hour - 1, minute := 59, second := 59 }
  else { t with days := t.days - 1, hour := 23, minute := 59, second := 59 }

/-- Modelled from the spec: the configuration module config.py (loaded
with a star import at line 15) is not present under src/.  Its session
constants are fixed by the spec and by the docstring of
get_next_run_time in the source: trading window 09:15 to 15:15 IST. -/
def TRADING_START_HOUR : Nat := 9

/-- Modelled from the spec: see TRADING_START_HOUR. -/
def TRADING_START_MINUTE : Nat := 15

/-- Modelled from the spec: see TRADING_START_HOUR. -/
def TRADING_END_HOUR : Nat := 15

/-- Modelled from the spec: see TRADING_START_HOUR. -/
def TRADING_END_MINUTE : Nat := 15

/-- Modelled from the spec: scan every 15 minutes within the window
(spec section 8 and the docstring of get_next_run_time). -/
def SCAN_INTERVAL_MINUTES : Nat := 15

/-- trading_start of the calendar date of now (source lines 177-182):
now.replace(hour=TRADING_START_HOUR, minute=TRADING_START_MINUTE,
second=0, microsecond=0). -/
def sessionStart (now : Instant) : Instant :=
  now.replaceTime TRADING_START_HOUR TRADING_START_MINUTE

/-- trading_end of the calendar date of now (source lines 183-188). -/
def sessionEnd (now : Instant) : Instant :=
  now.replaceTime TRADING_END_HOUR TRADING_END_MINUTE

/-- Source line 208: minutes = (now.minute // SCAN_INTERVAL_MINUTES + 1)
* SCAN_INTERVAL_MINUTES. -/
def snapMinutes (now : Instant) : Nat :=
  (now.minute / SCAN_INTERVAL_MINUTES + 1) * SCAN_INTERVAL_MINUTES

/-- Source lines 208-214: the in-window snapped candidate, with the
carry into the next hour when minutes reaches 60. -/
def candidate (now : Instant) : Instant :=
  if snapMinutes now = 60 then now.replaceTime (now.hour + 1) 0
  else now.replaceTime now.hour (snapMinutes now)

/-- Source lines 197-199 and 217-219: the while loop that advances one
day at a time as long as the weekday is Saturday (5) or Sunday (6).
The source loop is unbounded; it always exits within two iterations, so
running it with fuel 7 computes the same result (whileWeekend_eq
below). -/
def whileWeekend : Nat → Instant → Instant
  | 0, t => t
  | fuel + 1, t =>
    if 5 ≤ t.days % 7 then whileWeekend fuel (t.addDays 1) else t

/-- Source lines 196-205 (and identically 216-225): next_day = now + 1
day, skip weekend days, then replace the time of day with the session
start. -/
def nextTradingStart (now : Instant) : Instant :=
  sessionStart (whileWeekend 7 (now.addDays 1))

/-- Source lines 164-227, after normalization to IST (the claims only
concern IST-normalized instants, so the tzinfo branch at lines 171-174
is the identity here).  Datetime comparisons are comparisons of total
microseconds. -/
def get_next_run_time (now : Instant) : Instant :=
  if now.toMicros < (sessionStart now).toMicros then sessionStart now
  else if (sessionEnd now).toMicros < now.toMicros then nextTradingStart now
  else if (sessionEnd now).toMicros < (candidate now).toMicros then
    nextTradingStart now
  else candidate now

/-- A grid instant: seconds and microseconds zero and the minute a
multiple of the scan interval. -/
def IsGrid (g : Instant) : Prop :=
  g.minute % SCAN_INTERVAL_MINUTES = 0 ∧ g.second = 0 ∧ g.microsecond = 0

instance (g : Instant) : Decidable (IsGrid g) :=
  inferInstanceAs (Decidable (g.minute % SCAN_INTERVAL_MINUTES = 0 ∧
    g.second = 0 ∧ g.microsecond = 0))

/-- Source lines 160-162: a trading day is Monday to Friday, weekday
index below 5.  The source reads the clock itself; here the current
instant is passed explicitly. -/
def is_trading_day (now : Instant) : Bool :=
  now.days % 7 < 5

/-- Source lines 236-242: the target the weekend branch of main_loop
sleeps towards: now plus (7 - weekday) days, time replaced with the
session start. -/
def weekend_next_run (now : Instant) : Instant :=
  (now.addDays (7 - now.days % 7)).replaceTime TRADING_START_HOUR
    TRADING_START_MINUTE

/-- wait_seconds of source line 250, kept in integer microseconds to
stay exact: total_seconds() of a timedelta is its microsecond count
divided by one million, so every comparison the loop makes (with
24*3600, with 0) transfers exactly. -/
def waitMicros (now : Instant) : Int :=
  ((get_next_run_time now).toMicros : Int) - (now.toMicros : Int)

/-- Observable outcome of one iteration of the main_loop body (source
lines 230-272).  Every constructor ends with the loop continuing; sleep
durations are in microseconds. -/
inductive IterOutcome where
  | weekendSleep (waitMicros : Int)
  | offSessionSleep (waitMicros : Int)
  | jobDone (sleepMicros : Int)
  | errorRecovery (preSleepMicros cooldownMicros : Int)
deriving DecidableEq

/-- One iteration of the main_loop body.  now is the fresh clock value
read at line 232; jobOk tells whether the job() call at line 267 would
succeed or raise.  The except clause at lines 269-272 turns a raising
job into a logged error followed by time.sleep(60) and continue, which
is the errorRecovery outcome. -/
def main_loop_iter (now : Instant) (jobOk : Bool) : IterOutcome :=
  if ¬ is_trading_day now then
    IterOutcome.weekendSleep
      (((weekend_next_run now).toMicros : Int) - (now.toMicros : Int))
  else if waitMicros now > 24 * 3600 * 1000000 then
    IterOutcome.offSessionSleep (waitMicros now)
  else if jobOk then
    IterOutcome.jobDone (if waitMicros now > 0 then waitMicros now else 1000000)
  else
    IterOutcome.errorRecovery
      (if waitMicros now > 0 then waitMicros now else 1000000) 60000000

/-- The first n iterations of the while True loop.  env k supplies the
fresh clock value read at the start of iteration k and whether the job
succeeds in it; the loop body never breaks, so the trace always has one
outcome per iteration. -/
def main_loop_trace (env : Nat → Instant × Bool) : Nat → List IterOutcome
  | 0 => []
  | n + 1 =>
    main_loop_trace env n ++ [main_loop_iter (env n).1 (env n).2]

/-! Arithmetic lemmas about the embedding. -/

lemma Instant.addDays_days (t : Instant) (n : Nat) :
    (t.addDays n).days = t.days + n := rfl

lemma replaceTime_days (t : Instant) (h m : Nat) :
    (t.replaceTime h m).days = t.days := rfl

lemma replaceTime_hour (t : Instant) (h m : Nat) :
    (t.replaceTime h m).hour = h := rfl

lemma replaceTime_minute (t : Instant) (h m : Nat) :
    (t.replaceTime h m).minute = m := rfl

lemma replaceTime_second (t : Instant) (h m : Nat) :
    (t.replaceTime h m).second = 0 := rfl

lemma replaceTime_microsecond (t : Instant) (h m : Nat) :
    (t.replaceTime h m).microsecond = 0 := rfl

lemma toMicros_def (t : Instant) :
    t.toMicros = t.days * 86400000000 + t.hour * 3600000000 +
      t.minute * 60000000 + t.second * 1000000 + t.microsecond := by
  simp only [Instant.toMicros]; ring

lemma toMicros_replaceTime (t : Instant) (h m : Nat) :
    (t.replaceTime h m).toMicros =
      t.days * 86400000000 + h * 3600000000 + m * 60000000 := by
  simp only [Instant.replaceTime, Instant.toMicros]; ring

lemma sessionStart_toMicros (t : Instant) :
    (sessionStart t).toMicros = t.days * 86400000000 + 33300000000 := by
  simp only [sessionStart, TRADING_START_HOUR, TRADING_START_MINUTE,
    Instant.replaceTime, Instant.toMicros]
  omega

lemma sessionEnd_toMicros (t : Instant) :
    (sessionEnd t).toMicros = t.days * 86400000000 + 54900000000 := by
  simp only [sessionEnd, TRADING_END_HOUR, TRADING_END_MINUTE,
    Instant.replaceTime, Instant.toMicros]
  omega

lemma sessionStart_days (t : Instant) : (sessionStart t).days = t.days := rfl

lemma whileWeekend_succ (fuel : Nat) (t : Instant) :
    whileWeekend (fuel + 1) t =
      if 5 ≤ t.days % 7 then whileWeekend fuel (t.addDays 1) else t := rfl

lemma whileWeekend_eq (t : Instant) :
    whileWeekend 7 t =
      if t.days % 7 = 5 then t.addDays 2
      else if t.days % 7 = 6 then t.addDays 1
      else t := by
  have hc : (t.addDays 1).addDays 1 = t.addDays 2 := rfl
  rw [show (7 : Nat) = 6 + 1 from rfl, whileWeekend_succ]
  by_cases h : 5 ≤ t.days % 7
  · rw [if_pos h, show (6 : Nat) = 5 + 1 from rfl, whileWeekend_succ,
      Instant.addDays_days]
    by_cases h2 : 5 ≤ (t.days + 1) % 7
    · have h5 : t.days % 7 = 5 := by omega
      rw [if_pos h2, show (5 : Nat) = 4 + 1 from rfl, whileWeekend_succ, hc,
        Instant.addDays_days]
      rw [if_neg (by omega : ¬ 5 ≤ (t.days + 2) % 7), if_pos h5]
    · have h6 : t.days % 7 = 6 := by omega
      rw [if_neg h2, if_neg (by omega : ¬ t.days % 7 = 5), if_pos h6]
  · rw [if_neg h, if_neg (by omega : ¬ t.days % 7 = 5),
      if_neg (by omega : ¬ t.days % 7 = 6)]

lemma nextTradingStart_days (t : Instant) :
    (nextTradingStart t).days =
      if (t.days + 1) % 7 = 5 then t.days + 3
      else if (t.days + 1) % 7 = 6 then t.days + 2
      else t.days + 1 := by
  unfold nextTradingStart
  rw [whileWeekend_eq]
  simp only [Instant.addDays_days]
  split_ifs with h1 h2 <;>
    simp only [sessionStart_days, Instant.addDays_days]

lemma nextTradingStart_days_ge (t : Instant) :
    t.days + 1 ≤ (nextTradingStart t).days := by
  rw [nextTradingStart_days]; split_ifs <;> omega

lemma nextTradingStart_weekday (t : Instant) :
    (nextTradingStart t).days % 7 < 5 := by
  rw [nextTradingStart_days]; split_ifs <;> omega

lemma nextTradingStart_min (t : Instant) (e : Nat) (he1 : t.days < e)
    (he2 : e % 7 < 5) : (nextTradingStart t).days ≤ e := by
  rw [nextTradingStart_days]; split_ifs <;> omega

lemma nextTradingStart_toMicros (t : Instant) :
    (nextTradingStart t).toMicros =
      (nextTradingStart t).days * 86400000000 + 33300000000 := by
  unfold nextTradingStart
  rw [sessionStart_toMicros, sessionStart_days]

lemma nextTradingStart_gt (t : Instant) (hv : t.Valid) :
    t.toMicros < (nextTradingStart t).toMicros := by
  obtain ⟨h1, h2, h3, h4⟩ := hv
  have hd := nextTradingStart_days_ge t
  rw [nextTradingStart_toMicros, toMicros_def]
  omega

/-! Branch lemmas for get_next_run_time. -/

lemma gnrt_before (t : Instant)
    (h : t.toMicros < (sessionStart t).toMicros) :
    get_next_run_time t = sessionStart t := by
  unfold get_next_run_time
  rw [if_pos h]

lemma gnrt_after (t : Instant)
    (h : (sessionEnd t).toMicros < t.toMicros) :
    get_next_run_time t = nextTradingStart t := by
  have h1 : ¬ t.toMicros < (sessionStart t).toMicros := by
    have hs := sessionStart_toMicros t
    have he := sessionEnd_toMicros t
    omega
  unfold get_next_run_time
  rw [if_neg h1, if_pos h]

lemma gnrt_in_window (t : Instant)
    (hs : (sessionStart t).toMicros ≤ t.toMicros)
    (he : t.toMicros ≤ (sessionEnd t).toMicros)
    (hc : (candidate t).toMicros ≤ (sessionEnd t).toMicros) :
    get_next_run_time t = candidate t := by
  unfold get_next_run_time
  rw [if_neg (by omega), if_neg (by omega), if_neg (by omega)]

lemma gnrt_overflow (t : Instant)
    (hs : (sessionStart t).toMicros ≤ t.toMicros)
    (he : t.toMicros ≤ (sessionEnd t).toMicros)
    (hc : (sessionEnd t).toMicros < (candidate t).toMicros) :
    get_next_run_time t = nextTradingStart t := by
  unfold get_next_run_time
  rw [if_neg (by omega), if_neg (by omega), if_pos hc]

/-! Lemmas about the in-window candidate. -/

lemma candidate_gt (t : Instant) (hv : t.Valid) :
    t.toMicros < (candidate t).toMicros := by
  obtain ⟨h1, h2, h3, h4⟩ := hv
  unfold candidate snapMinutes SCAN_INTERVAL_MINUTES
  split_ifs with h
  · simp only [Instant.replaceTime, Instant.toMicros]
    omega
  · simp only [Instant.replaceTime, Instant.toMicros]
    omega

lemma candidate_isGrid (t : Instant) : IsGrid (candidate t) := by
  unfold IsGrid candidate
  split_ifs with h
  · exact ⟨rfl, rfl, rfl⟩
  · refine ⟨?_, rfl, rfl⟩
    show snapMinutes t % SCAN_INTERVAL_MINUTES = 0
    unfold snapMinutes SCAN_INTERVAL_MINUTES
    omega

lemma candidate_min (t g : Instant) (hv : t.Valid) (hgv : g.Valid)
    (hg : IsGrid g) (hgt : t.toMicros < g.toMicros) :
    (candidate t).toMicros ≤ g.toMicros := by
  obtain ⟨hth, htm, hts, htmic⟩ := hv
  obtain ⟨hgh, hgm, hgs, hgmic⟩ := hgv
  obtain ⟨hg15, hgs0, hgmic0⟩ := hg
  simp only [SCAN_INTERVAL_MINUTES] at hg15
  simp only [Instant.toMicros] at hgt
  unfold candidate snapMinutes SCAN_INTERVAL_MINUTES
  split_ifs with h60
  · simp only [Instant.replaceTime, Instant.toMicros]
    omega
  · simp only [Instant.replaceTime, Instant.toMicros]
    omega

/-! Stepping one second back from a planner result lands in a branch
that reproduces the result: the two lemmas below cover results of the
session-start shape and results of the in-window candidate shape. -/

lemma step_back_start (r : Instant) (h1 : r.hour = TRADING_START_HOUR)
    (h2 : r.minute = TRADING_START_MINUTE) (h3 : r.second = 0)
    (h4 : r.microsecond = 0) :
    get_next_run_time r.subOneSecond = r := by
  obtain ⟨d, hh, mm, ss, mc⟩ := r
  simp only [TRADING_START_HOUR] at h1
  simp only [TRADING_START_MINUTE] at h2
  subst h1
  subst h2
  subst h3
  subst h4
  have hsub : Instant.subOneSecond ⟨d, 9, 15, 0, 0⟩ = ⟨d, 9, 14, 59, 0⟩ := rfl
  rw [hsub, gnrt_before]
  · rfl
  · rw [sessionStart_toMicros]
    simp only [Instant.toMicros]
    omega

lemma step_back_candidate (t : Instant) (hv : t.Valid)
    (hs : (sessionStart t).toMicros ≤ t.toMicros)
    (he : t.toMicros ≤ (sessionEnd t).toMicros)
    (hc : (candidate t).toMicros ≤ (sessionEnd t).toMicros) :
    get_next_run_time ((candidate t).subOneSecond) = candidate t := by
  obtain ⟨hth, htm, hts, htmic⟩ := hv
  have hgt := candidate_gt t ⟨hth, htm, hts, htmic⟩
  rw [sessionStart_toMicros] at hs
  rw [sessionEnd_toMicros] at he
  rw [sessionEnd_toMicros] at hc
  simp only [Instant.toMicros] at hs he hgt
  by_cases h60 : snapMinutes t = 60
  · have h45 : 45 ≤ t.minute := by
      unfold snapMinutes SCAN_INTERVAL_MINUTES at h60
      omega
    have hcm : candidate t = ⟨t.days, t.hour + 1, 0, 0, 0⟩ := by
      unfold candidate
      rw [if_pos h60]
      rfl
    rw [hcm] at hc hgt
    simp only [Instant.toMicros] at hc hgt
    have hsub : Instant.subOneSecond ⟨t.days, t.hour + 1, 0, 0, 0⟩ =
        ⟨t.days, t.hour, 59, 59, 0⟩ := by
      simp only [Instant.subOneSecond]
      norm_num
    rw [hcm, hsub]
    have h59 : snapMinutes ⟨t.days, t.hour, 59, 59, 0⟩ = 60 := by
      simp only [snapMinutes, SCAN_INTERVAL_MINUTES]
    have hcq : candidate ⟨t.days, t.hour, 59, 59, 0⟩ =
        ⟨t.days, t.hour + 1, 0, 0, 0⟩ := by
      unfold candidate
      rw [if_pos h59]
      rfl
    have hs2 : (sessionStart (⟨t.days, t.hour, 59, 59, 0⟩ : Instant)).toMicros ≤
        (⟨t.days, t.hour, 59, 59, 0⟩ : Instant).toMicros := by
      rw [sessionStart_toMicros]
      simp only [Instant.toMicros]
      omega
    have he2 : (⟨t.days, t.hour, 59, 59, 0⟩ : Instant).toMicros ≤
        (sessionEnd (⟨t.days, t.hour, 59, 59, 0⟩ : Instant)).toMicros := by
      rw [sessionEnd_toMicros]
      simp only [Instant.toMicros]
      omega
    have hc2 : (candidate (⟨t.days, t.hour, 59, 59, 0⟩ : Instant)).toMicros ≤
        (sessionEnd (⟨t.days, t.hour, 59, 59, 0⟩ : Instant)).toMicros := by
      rw [hcq, sessionEnd_toMicros]
      simp only [Instant.toMicros]
      omega
    rw [gnrt_in_window _ hs2 he2 hc2, hcq]
  · have hM : snapMinutes t = (t.minute / 15 + 1) * 15 := rfl
    have hMpos : 0 < snapMinutes t := by omega
    have hM45 : snapMinutes t ≤ 45 := by omega
    have hcm : candidate t = ⟨t.days, t.hour, snapMinutes t, 0, 0⟩ := by
      unfold candidate
      rw [if_neg h60]
      rfl
    rw [hcm] at hc hgt
    simp only [Instant.toMicros] at hc hgt
    have hsub : Instant.subOneSecond ⟨t.days, t.hour, snapMinutes t, 0, 0⟩ =
        ⟨t.days, t.hour, snapMinutes t - 1, 59, 0⟩ := by
      simp only [Instant.subOneSecond]
      rw [if_neg (show ¬ (0 : Nat) < 0 by omega), if_pos hMpos]
    rw [hcm, hsub]
    have hsnapq : snapMinutes ⟨t.days, t.hour, snapMinutes t - 1, 59, 0⟩ =
        snapMinutes t := by
      simp only [snapMinutes, SCAN_INTERVAL_MINUTES]
      omega
    have hcq : candidate ⟨t.days, t.hour, snapMinutes t - 1, 59, 0⟩ =
        ⟨t.days, t.hour, snapMinutes t, 0, 0⟩ := by
      unfold candidate
      rw [hsnapq, if_neg h60]
      rfl
    have hs2 : (sessionStart
        (⟨t.days, t.hour, snapMinutes t - 1, 59, 0⟩ : Instant)).toMicros ≤
        (⟨t.days, t.hour, snapMinutes t - 1, 59, 0⟩ : Instant).toMicros := by
      rw [sessionStart_toMicros]
      simp only [Instant.toMicros]
      omega
    have he2 : (⟨t.days, t.hour, snapMinutes t - 1, 59, 0⟩ : Instant).toMicros ≤
        (sessionEnd
          (⟨t.days, t.hour, snapMinutes t - 1, 59, 0⟩ : Instant)).toMicros := by
      rw [sessionEnd_toMicros]
      simp only [Instant.toMicros]
      omega
    have hc2 : (candidate
        (⟨t.days, t.hour, snapMinutes t - 1, 59, 0⟩ : Instant)).toMicros ≤
        (sessionEnd
          (⟨t.days, t.hour, snapMinutes t - 1, 59, 0⟩ : Instant)).toMicros := by
      rw [hcq, sessionEnd_toMicros]
      simp only [Instant.toMicros]
      omega
    rw [gnrt_in_window _ hs2 he2 hc2, hcq]

/-! Claim theorems. -/

/-- C1: for an IST instant t inside the session window whose snapped
candidate does not exceed the session end, get_next_run_time returns the
candidate, which is the smallest grid instant strictly greater than t
(so the planner always advances at least one tick, even from a grid
boundary); an input exactly at the session start yields the session
start plus one interval; the code formula for minutes agrees with the
spec ceiling formula; and a candidate exactly equal to the session end
is a legal result returned as-is. -/
theorem C1_in_window_grid_snap (t : Instant) (hv : t.Valid)
    (hs : (sessionStart t).toMicros ≤ t.toMicros)
    (he : t.toMicros ≤ (sessionEnd t).toMicros)
    (hc : (candidate t).toMicros ≤ (sessionEnd t).toMicros) :
    get_next_run_time t = candidate t ∧
    IsGrid (get_next_run_time t) ∧
    t.toMicros < (get_next_run_time t).toMicros ∧
    (∀ g : Instant, g.Valid → IsGrid g → t.toMicros < g.toMicros →
      (get_next_run_time t).toMicros ≤ g.toMicros) ∧
    (t = sessionStart t →
      get_next_run_time t =
        t.replaceTime TRADING_START_HOUR
          (TRADING_START_MINUTE + SCAN_INTERVAL_MINUTES)) ∧
    snapMinutes t =
      (t.minute + 1 + (SCAN_INTERVAL_MINUTES - 1)) / SCAN_INTERVAL_MINUTES *
        SCAN_INTERVAL_MINUTES := by
  have heq := gnrt_in_window t hs he hc
  rw [heq]
  refine ⟨rfl, candidate_isGrid t, candidate_gt t hv,
    fun g hgv hg hgt => candidate_min t g hv hgv hg hgt, ?_, ?_⟩
  · intro hstart
    have hm : t.minute = TRADING_START_MINUTE := congrArg Instant.minute hstart
    have hh : t.hour = TRADING_START_HOUR := congrArg Instant.hour hstart
    have h60 : ¬ snapMinutes t = 60 := by
      simp only [snapMinutes, SCAN_INTERVAL_MINUTES, hm, TRADING_START_MINUTE]
      omega
    unfold candidate
    rw [if_neg h60, hh]
    congr 1
    simp only [snapMinutes, SCAN_INTERVAL_MINUTES, hm, TRADING_START_MINUTE,
      TRADING_START_HOUR]
  · simp only [snapMinutes, SCAN_INTERVAL_MINUTES]
    omega

/-- C1 witness: the hypotheses of C1_in_window_grid_snap hold at Monday
10:20:30 IST (day index 0, a Monday) and the statement follows by
applying the theorem there. -/
theorem C1_in_window_grid_snap_witness :
    ((⟨0, 10, 20, 30, 0⟩ : Instant).Valid ∧
      (sessionStart ⟨0, 10, 20, 30, 0⟩).toMicros ≤
        (⟨0, 10, 20, 30, 0⟩ : Instant).toMicros ∧
      (⟨0, 10, 20, 30, 0⟩ : Instant).toMicros ≤
        (sessionEnd ⟨0, 10, 20, 30, 0⟩).toMicros ∧
      (candidate ⟨0, 10, 20, 30, 0⟩).toMicros ≤
        (sessionEnd ⟨0, 10, 20, 30, 0⟩).toMicros) ∧
    (get_next_run_time ⟨0, 10, 20, 30, 0⟩ = candidate ⟨0, 10, 20, 30, 0⟩ ∧
      IsGrid (get_next_run_time ⟨0, 10, 20, 30, 0⟩) ∧
      (⟨0, 10, 20, 30, 0⟩ : Instant).toMicros <
        (get_next_run_time ⟨0, 10, 20, 30, 0⟩).toMicros ∧
      (∀ g : Instant, g.Valid → IsGrid g →
        (⟨0, 10, 20, 30, 0⟩ : Instant).toMicros < g.toMicros →
        (get_next_run_time ⟨0, 10, 20, 30, 0⟩).toMicros ≤ g.toMicros) ∧
      ((⟨0, 10, 20, 30, 0⟩ : Instant) = sessionStart ⟨0, 10, 20, 30, 0⟩ →
        get_next_run_time ⟨0, 10, 20, 30, 0⟩ =
          (⟨0, 10, 20, 30, 0⟩ : Instant).replaceTime TRADING_START_HOUR
            (TRADING_START_MINUTE + SCAN_INTERVAL_MINUTES)) ∧
      snapMinutes ⟨0, 10, 20, 30, 0⟩ =
        ((⟨0, 10, 20, 30, 0⟩ : Instant).minute + 1 +
          (SCAN_INTERVAL_MINUTES - 1)) / SCAN_INTERVAL_MINUTES *
          SCAN_INTERVAL_MINUTES) :=
  ⟨⟨by decide, by decide, by decide, by decide⟩,
    C1_in_window_grid_snap ⟨0, 10, 20, 30, 0⟩ (by decide) (by decide)
      (by decide) (by decide)⟩

/-- C2: an instant exactly at the session end of a trading-day window
(hour TRADING_END_HOUR, minute TRADING_END_MINUTE, seconds and
microseconds zero) is sent to the session start of the next trading
day; the result is never the session end itself nor any instant on the
same date. -/
theorem C2_session_end_rollover (t : Instant) (hv : t.Valid)
    (hh : t.hour = TRADING_END_HOUR) (hm : t.minute = TRADING_END_MINUTE)
    (hsec : t.second = 0) (hmic : t.microsecond = 0) :
    get_next_run_time t = nextTradingStart t ∧
    t.days < (get_next_run_time t).days ∧
    (get_next_run_time t).days % 7 < 5 ∧
    get_next_run_time t ≠ sessionEnd t ∧
    (get_next_run_time t).hour = TRADING_START_HOUR ∧
    (get_next_run_time t).minute = TRADING_START_MINUTE ∧
    (get_next_run_time t).second = 0 ∧
    (get_next_run_time t).microsecond = 0 := by
  have hs : (sessionStart t).toMicros ≤ t.toMicros := by
    rw [sessionStart_toMicros, toMicros_def, hh, hm, hsec, hmic]
    simp only [TRADING_END_HOUR, TRADING_END_MINUTE]
    omega
  have he : t.toMicros ≤ (sessionEnd t).toMicros := by
    rw [sessionEnd_toMicros, toMicros_def, hh, hm, hsec, hmic]
    simp only [TRADING_END_HOUR, TRADING_END_MINUTE]
    omega
  have hsn : snapMinutes t = 30 := by
    simp only [snapMinutes, SCAN_INTERVAL_MINUTES, hm, TRADING_END_MINUTE]
  have hcand : candidate t = t.replaceTime t.hour 30 := by
    unfold candidate
    rw [hsn, if_neg (by omega : ¬ (30 : Nat) = 60)]
  have h3 : (sessionEnd t).toMicros < (candidate t).toMicros := by
    rw [hcand, toMicros_replaceTime, sessionEnd_toMicros, hh]
    simp only [TRADING_END_HOUR]
    omega
  have heq := gnrt_overflow t hs he h3
  rw [heq]
  have hge := nextTradingStart_days_ge t
  refine ⟨rfl, by omega, nextTradingStart_weekday t, ?_, rfl, rfl, rfl, rfl⟩
  intro hbad
  have hd := congrArg Instant.days hbad
  have hd2 : (sessionEnd t).days = t.days := rfl
  omega

/-- C2 witness: the hypotheses of C2_session_end_rollover hold at Monday
15:15:00 IST and the statement follows by applying the theorem there. -/
theorem C2_session_end_rollover_witness :
    ((⟨0, 15, 15, 0, 0⟩ : Instant).Valid ∧
      (⟨0, 15, 15, 0, 0⟩ : Instant).hour = TRADING_END_HOUR ∧
      (⟨0, 15, 15, 0, 0⟩ : Instant).minute = TRADING_END_MINUTE ∧
      (⟨0, 15, 15, 0, 0⟩ : Instant).second = 0 ∧
      (⟨0, 15, 15, 0, 0⟩ : Instant).microsecond = 0) ∧
    (get_next_run_time ⟨0, 15, 15, 0, 0⟩ = nextTradingStart ⟨0, 15, 15, 0, 0⟩ ∧
      (⟨0, 15, 15, 0, 0⟩ : Instant).days <
        (get_next_run_time ⟨0, 15, 15, 0, 0⟩).days ∧
      (get_next_run_time ⟨0, 15, 15, 0, 0⟩).days % 7 < 5 ∧
      get_next_run_time ⟨0, 15, 15, 0, 0⟩ ≠ sessionEnd ⟨0, 15, 15, 0, 0⟩ ∧
      (get_next_run_time ⟨0, 15, 15, 0, 0⟩).hour = TRADING_START_HOUR ∧
      (get_next_run_time ⟨0, 15, 15, 0, 0⟩).minute = TRADING_START_MINUTE ∧
      (get_next_run_time ⟨0, 15, 15, 0, 0⟩).second = 0 ∧
      (get_next_run_time ⟨0, 15, 15, 0, 0⟩).microsecond = 0) :=
  ⟨⟨by decide, by decide, by decide, by decide, by decide⟩,
    C2_session_end_rollover ⟨0, 15, 15, 0, 0⟩ (by decide) (by decide)
      (by decide) (by decide) (by decide)⟩

/-- C3: an IST instant strictly before the session start of its own
date is sent to the session start of that same date, with seconds and
microseconds zero. -/
theorem C3_pre_market (t : Instant) (hv : t.Valid)
    (h : t.toMicros < (sessionStart t).toMicros) :
    get_next_run_time t = sessionStart t ∧
    (get_next_run_time t).days = t.days ∧
    (get_next_run_time t).hour = TRADING_START_HOUR ∧
    (get_next_run_time t).minute = TRADING_START_MINUTE ∧
    (get_next_run_time t).second = 0 ∧
    (get_next_run_time t).microsecond = 0 := by
  rw [gnrt_before t h]
  exact ⟨rfl, rfl, rfl, rfl, rfl, rfl⟩

/-- C3 witness: the hypotheses of C3_pre_market hold at Monday 08:00:00
IST and the statement follows by applying the theorem there. -/
theorem C3_pre_market_witness :
    ((⟨0, 8, 0, 0, 0⟩ : Instant).Valid ∧
      (⟨0, 8, 0, 0, 0⟩ : Instant).toMicros <
        (sessionStart ⟨0, 8, 0, 0, 0⟩).toMicros) ∧
    (get_next_run_time ⟨0, 8, 0, 0, 0⟩ = sessionStart ⟨0, 8, 0, 0, 0⟩ ∧
      (get_next_run_time ⟨0, 8, 0, 0, 0⟩).days = (⟨0, 8, 0, 0, 0⟩ : Instant).days ∧
      (get_next_run_time ⟨0, 8, 0, 0, 0⟩).hour = TRADING_START_HOUR ∧
      (get_next_run_time ⟨0, 8, 0, 0, 0⟩).minute = TRADING_START_MINUTE ∧
      (get_next_run_time ⟨0, 8, 0, 0, 0⟩).second = 0 ∧
      (get_next_run_time ⟨0, 8, 0, 0, 0⟩).microsecond = 0) :=
  ⟨⟨by decide, by decide⟩,
    C3_pre_market ⟨0, 8, 0, 0, 0⟩ (by decide) (by decide)⟩

/-- C4: an IST instant strictly after the session end of its date is
sent to the session start of the next trading day, where the next
trading day is the least later calendar day whose weekday is not
Saturday or Sunday (the code advances one day at a time skipping
both). -/
theorem C4_after_hours (t : Instant) (hv : t.Valid)
    (h : (sessionEnd t).toMicros < t.toMicros) :
    get_next_run_time t = nextTradingStart t ∧
    t.days < (get_next_run_time t).days ∧
    (get_next_run_time t).days % 7 < 5 ∧
    (∀ e : Nat, t.days < e → e % 7 < 5 → (get_next_run_time t).days ≤ e) ∧
    (get_next_run_time t).hour = TRADING_START_HOUR ∧
    (get_next_run_time t).minute = TRADING_START_MINUTE ∧
    (get_next_run_time t).second = 0 ∧
    (get_next_run_time t).microsecond = 0 := by
  rw [gnrt_after t h]
  have hge := nextTradingStart_days_ge t
  exact ⟨rfl, by omega, nextTradingStart_weekday t,
    fun e he1 he2 => nextTradingStart_min t e he1 he2, rfl, rfl, rfl, rfl⟩

/-- C4 witness: the hypotheses of C4_after_hours hold at Monday 16:00:00
IST and the statement follows by applying the theorem there. -/
theorem C4_after_hours_witness :
    ((⟨0, 16, 0, 0, 0⟩ : Instant).Valid ∧
      (sessionEnd ⟨0, 16, 0, 0, 0⟩).toMicros <
        (⟨0, 16, 0, 0, 0⟩ : Instant).toMicros) ∧
    (get_next_run_time ⟨0, 16, 0, 0, 0⟩ = nextTradingStart ⟨0, 16, 0, 0, 0⟩ ∧
      (⟨0, 16, 0, 0, 0⟩ : Instant).days <
        (get_next_run_time ⟨0, 16, 0, 0, 0⟩).days ∧
      (get_next_run_time ⟨0, 16, 0, 0, 0⟩).days % 7 < 5 ∧
      (∀ e : Nat, (⟨0, 16, 0, 0, 0⟩ : Instant).days < e → e % 7 < 5 →
        (get_next_run_time ⟨0, 16, 0, 0, 0⟩).days ≤ e) ∧
      (get_next_run_time ⟨0, 16, 0, 0, 0⟩).hour = TRADING_START_HOUR ∧
      (get_next_run_time ⟨0, 16, 0, 0, 0⟩).minute = TRADING_START_MINUTE ∧
      (get_next_run_time ⟨0, 16, 0, 0, 0⟩).second = 0 ∧
      (get_next_run_time ⟨0, 16, 0, 0, 0⟩).microsecond = 0) :=
  ⟨⟨by decide, by decide⟩,
    C4_after_hours ⟨0, 16, 0, 0, 0⟩ (by decide) (by decide)⟩

/-- C5 counterexample: at Saturday 10:00:00 IST (day index 5 is a
Saturday) the planner returns Saturday 10:15:00, the in-window grid
snap, and not the following Monday 09:15:00 (day index 7): the weekday
check lives in main_loop, not in get_next_run_time. -/
theorem C5_saturday_counterexample :
    get_next_run_time ⟨5, 10, 0, 0, 0⟩ = ⟨5, 10, 15, 0, 0⟩ ∧
    get_next_run_time ⟨5, 10, 0, 0, 0⟩ ≠ ⟨7, 9, 15, 0, 0⟩ := by decide

/-- C5 amended: for Saturday 10:00 IST the planner itself returns the
same-day grid snap Saturday 10:15:00; the Monday 09:15:00 expectation
is realized one level up, by the weekend branch of main_loop, which
computes weekend_next_run (the following Monday at session start,
skipping Sunday) and sleeps the full duration without invoking the
planner or the job. -/
theorem C5_saturday_amended :
    get_next_run_time ⟨5, 10, 0, 0, 0⟩ = ⟨5, 10, 15, 0, 0⟩ ∧
    weekend_next_run ⟨5, 10, 0, 0, 0⟩ = ⟨7, 9, 15, 0, 0⟩ ∧
    (⟨7, 9, 15, 0, 0⟩ : Instant).days % 7 = 0 ∧
    main_loop_iter ⟨5, 10, 0, 0, 0⟩ true =
      IterOutcome.weekendSleep
        (((⟨7, 9, 15, 0, 0⟩ : Instant).toMicros : Int) -
          ((⟨5, 10, 0, 0, 0⟩ : Instant).toMicros : Int)) := by decide

/-- C6: re-evaluation idempotence of the planner: for every valid IST
instant t, letting r be get_next_run_time t, evaluating the planner one
second before r returns r again. -/
theorem C6_reevaluation_idempotent (t : Instant) (hv : t.Valid) :
    get_next_run_time ((get_next_run_time t).subOneSecond) =
      get_next_run_time t := by
  by_cases h1 : t.toMicros < (sessionStart t).toMicros
  · rw [gnrt_before t h1]
    exact step_back_start (sessionStart t) rfl rfl rfl rfl
  · by_cases h2 : (sessionEnd t).toMicros < t.toMicros
    · rw [gnrt_after t h2]
      exact step_back_start (nextTradingStart t) rfl rfl rfl rfl
    · by_cases h3 : (sessionEnd t).toMicros < (candidate t).toMicros
      · rw [gnrt_overflow t (le_of_not_lt h1) (le_of_not_lt h2) h3]
        exact step_back_start (nextTradingStart t) rfl rfl rfl rfl
      · rw [gnrt_in_window t (le_of_not_lt h1) (le_of_not_lt h2)
          (le_of_not_lt h3)]
        exact step_back_candidate t hv (le_of_not_lt h1) (le_of_not_lt h2)
          (le_of_not_lt h3)

/-- C6 witness: the hypothesis of C6_reevaluation_idempotent holds at
Monday 10:00:00 IST and the statement follows by applying the theorem
there. -/
theorem C6_reevaluation_idempotent_witness :
    (⟨0, 10, 0, 0, 0⟩ : Instant).Valid ∧
    get_next_run_time ((get_next_run_time ⟨0, 10, 0, 0, 0⟩).subOneSecond) =
      get_next_run_time ⟨0, 10, 0, 0, 0⟩ :=
  ⟨by decide, C6_reevaluation_idempotent ⟨0, 10, 0, 0, 0⟩ (by decide)⟩

/-- C7: when the job raises in an iteration that reaches it (a trading
day whose wait is at most 24 hours), the loop body catches the
exception and yields the errorRecovery outcome with a fixed cooldown of
60 seconds; moreover the trace of the loop always has one outcome per
iteration (no failure terminates it) and each next iteration is
computed from the fresh clock value supplied for it, never from a
stored schedule. -/
theorem C7_failure_cooldown (now : Instant) (h1 : is_trading_day now = true)
    (h2 : waitMicros now ≤ 24 * 3600 * 1000000) :
    main_loop_iter now false =
      IterOutcome.errorRecovery
        (if waitMicros now > 0 then waitMicros now else 1000000) 60000000 ∧
    (∀ env : Nat → Instant × Bool, ∀ n : Nat,
      (main_loop_trace env n).length = n) ∧
    (∀ env : Nat → Instant × Bool, ∀ n : Nat,
      main_loop_trace env (n + 1) =
        main_loop_trace env n ++ [main_loop_iter (env n).1 (env n).2]) := by
  refine ⟨?_, ?_, fun env n => rfl⟩
  · unfold main_loop_iter
    rw [h1]
    rw [if_neg (by simp), if_neg (by omega), if_neg (by simp)]
  · intro env n
    induction n with
    | zero => rfl
    | succ k ih => simp [main_loop_trace, ih]

/-- C7 witness: the hypotheses of C7_failure_cooldown hold at Monday
10:00:00 IST (wait 15 minutes) and the statement follows by applying
the theorem there. -/
theorem C7_failure_cooldown_witness :
    (is_trading_day ⟨0, 10, 0, 0, 0⟩ = true ∧
      waitMicros ⟨0, 10, 0, 0, 0⟩ ≤ 24 * 3600 * 1000000) ∧
    (main_loop_iter ⟨0, 10, 0, 0, 0⟩ false =
      IterOutcome.errorRecovery
        (if waitMicros ⟨0, 10, 0, 0, 0⟩ > 0 then waitMicros ⟨0, 10, 0, 0, 0⟩
          else 1000000) 60000000 ∧
    (∀ env : Nat → Instant × Bool, ∀ n : Nat,
      (main_loop_trace env n).length = n) ∧
    (∀ env : Nat → Instant × Bool, ∀ n : Nat,
      main_loop_trace env (n + 1) =
        main_loop_trace env n ++ [main_loop_iter (env n).1 (env n).2])) :=
  ⟨⟨by decide, by decide⟩,
    C7_failure_cooldown ⟨0, 10, 0, 0, 0⟩ (by decide) (by decide)⟩

/-- C8: on a weekend entry the loop sleeps towards weekend_next_run,
the instant now plus (7 minus weekday) days with the time replaced by
the session start, without executing the job; the target is always a
Monday at session start, two days ahead from a Saturday and one day
ahead from a Sunday. -/
theorem C8_weekend_branch (now : Instant) (hw : is_trading_day now = false)
    (ok : Bool) :
    main_loop_iter now ok =
      IterOutcome.weekendSleep (((weekend_next_run now).toMicros : Int) -
        (now.toMicros : Int)) ∧
    (∀ s : Int, main_loop_iter now ok ≠ IterOutcome.jobDone s) ∧
    (weekend_next_run now).days = now.days + (7 - now.days % 7) ∧
    (weekend_next_run now).days % 7 = 0 ∧
    (weekend_next_run now).hour = TRADING_START_HOUR ∧
    (weekend_next_run now).minute = TRADING_START_MINUTE ∧
    (weekend_next_run now).second = 0 ∧
    (weekend_next_run now).microsecond = 0 ∧
    (now.days % 7 = 5 → (weekend_next_run now).days = now.days + 2) ∧
    (now.days % 7 = 6 → (weekend_next_run now).days = now.days + 1) := by
  have hiter : main_loop_iter now ok =
      IterOutcome.weekendSleep (((weekend_next_run now).toMicros : Int) -
        (now.toMicros : Int)) := by
    unfold main_loop_iter
    rw [hw]
    rw [if_pos (by simp)]
  have hdd : (weekend_next_run now).days = now.days + (7 - now.days % 7) := rfl
  refine ⟨hiter, ?_, hdd, ?_, rfl, rfl, rfl, rfl, ?_, ?_⟩
  · intro s hbad
    rw [hiter] at hbad
    exact IterOutcome.noConfusion hbad
  · rw [hdd]; omega
  · intro h5; rw [hdd]; omega
  · intro h6; rw [hdd]; omega

/-- C8 witness: the hypothesis of C8_weekend_branch holds at Saturday
10:00:00 IST (day index 5) with a succeeding job, and the statement
follows by applying the theorem there. -/
theorem C8_weekend_branch_witness :
    is_trading_day ⟨5, 10, 0, 0, 0⟩ = false ∧
    (main_loop_iter ⟨5, 10, 0, 0, 0⟩ true =
      IterOutcome.weekendSleep
        (((weekend_next_run ⟨5, 10, 0, 0, 0⟩).toMicros : Int) -
          ((⟨5, 10, 0, 0, 0⟩ : Instant).toMicros : Int)) ∧
    (∀ s : Int, main_loop_iter ⟨5, 10, 0, 0, 0⟩ true ≠
      IterOutcome.jobDone s) ∧
    (weekend_next_run ⟨5, 10, 0, 0, 0⟩).days =
      (⟨5, 10, 0, 0, 0⟩ : Instant).days +
        (7 - (⟨5, 10, 0, 0, 0⟩ : Instant).days % 7) ∧
    (weekend_next_run ⟨5, 10, 0, 0, 0⟩).days % 7 = 0 ∧
    (weekend_next_run ⟨5, 10, 0, 0, 0⟩).hour = TRADING_START_HOUR ∧
    (weekend_next_run ⟨5, 10, 0, 0, 0⟩).minute = TRADING_START_MINUTE ∧
    (weekend_next_run ⟨5, 10, 0, 0, 0⟩).second = 0 ∧
    (weekend_next_run ⟨5, 10, 0, 0, 0⟩).microsecond = 0 ∧
    ((⟨5, 10, 0, 0, 0⟩ : Instant).days % 7 = 5 →
      (weekend_next_run ⟨5, 10, 0, 0, 0⟩).days =
        (⟨5, 10, 0, 0, 0⟩ : Instant).days + 2) ∧
    ((⟨5, 10, 0, 0, 0⟩ : Instant).days % 7 = 6 →
      (weekend_next_run ⟨5, 10, 0, 0, 0⟩).days =
        (⟨5, 10, 0, 0, 0⟩ : Instant).days + 1)) :=
  ⟨by decide, C8_weekend_branch ⟨5, 10, 0, 0, 0⟩ (by decide) true⟩

/-- C9: on a trading-day iteration the job runs only when the wait to
the planner target is at most 24 hours: a larger wait yields the
offSessionSleep outcome with no job execution, a wait within the bound
yields exactly one job execution after sleeping the remainder, and a
non-positive wait substitutes the minimal one-second backoff sleep. -/
theorem C9_wait_gating (now : Instant) (h1 : is_trading_day now = true) :
    (waitMicros now > 24 * 3600 * 1000000 →
      ∀ ok : Bool, main_loop_iter now ok =
        IterOutcome.offSessionSleep (waitMicros now)) ∧
    (∀ s : Int, main_loop_iter now true = IterOutcome.jobDone s →
      waitMicros now ≤ 24 * 3600 * 1000000 ∧
      s = if waitMicros now > 0 then waitMicros now else 1000000) ∧
    (waitMicros now ≤ 24 * 3600 * 1000000 →
      main_loop_iter now true =
        IterOutcome.jobDone
          (if waitMicros now > 0 then waitMicros now else 1000000)) ∧
    (waitMicros now ≤ 0 → waitMicros now ≤ 24 * 3600 * 1000000 →
      main_loop_iter now true = IterOutcome.jobDone 1000000) := by
  refine ⟨?_, ?_, ?_, ?_⟩
  · intro hgt ok
    unfold main_loop_iter
    rw [h1]
    rw [if_neg (by simp), if_pos hgt]
  · intro s hjd
    unfold main_loop_iter at hjd
    rw [h1] at hjd
    rw [if_neg (by simp)] at hjd
    by_cases hw : waitMicros now > 24 * 3600 * 1000000
    · rw [if_pos hw] at hjd
      exact absurd hjd (by simp)
    · rw [if_neg hw, if_pos rfl] at hjd
      injection hjd with hinj
      exact ⟨by omega, hinj.symm⟩
  · intro hle
    unfold main_loop_iter
    rw [h1]
    rw [if_neg (by simp), if_neg (by omega), if_pos rfl]
  · intro hle0 hle
    unfold main_loop_iter
    rw [h1]
    rw [if_neg (by simp), if_neg (by omega), if_pos rfl,
      if_neg (by omega)]

/-- C9 witness: the hypothesis of C9_wait_gating holds at Monday
10:00:00 IST and the statement follows by applying the theorem there. -/
theorem C9_wait_gating_witness :
    is_trading_day ⟨0, 10, 0, 0, 0⟩ = true ∧
    ((waitMicros ⟨0, 10, 0, 0, 0⟩ > 24 * 3600 * 1000000 →
      ∀ ok : Bool, main_loop_iter ⟨0, 10, 0, 0, 0⟩ ok =
        IterOutcome.offSessionSleep (waitMicros ⟨0, 10, 0, 0, 0⟩)) ∧
    (∀ s : Int, main_loop_iter ⟨0, 10, 0, 0, 0⟩ true =
        IterOutcome.jobDone s →
      waitMicros ⟨0, 10, 0, 0, 0⟩ ≤ 24 * 3600 * 1000000 ∧
      s = if waitMicros ⟨0, 10, 0, 0, 0⟩ > 0 then waitMicros ⟨0, 10, 0, 0, 0⟩
        else 1000000) ∧
    (waitMicros ⟨0, 10, 0, 0, 0⟩ ≤ 24 * 3600 * 1000000 →
      main_loop_iter ⟨0, 10, 0, 0, 0⟩ true =
        IterOutcome.jobDone
          (if waitMicros ⟨0, 10, 0, 0, 0⟩ > 0 then waitMicros ⟨0, 10, 0, 0, 0⟩
            else 1000000)) ∧
    (waitMicros ⟨0, 10, 0, 0, 0⟩ ≤ 0 →
      waitMicros ⟨0, 10, 0, 0, 0⟩ ≤ 24 * 3600 * 1000000 →
      main_loop_iter ⟨0, 10, 0, 0, 0⟩ true = IterOutcome.jobDone 1000000)) :=
  ⟨by decide, C9_wait_gating ⟨0, 10, 0, 0, 0⟩ (by decide)⟩

/-- C10: strict progress of the planner: for every valid IST instant,
get_next_run_time returns an instant strictly in the future, on every
branch. -/
theorem C10_strict_progress (t : Instant) (hv : t.Valid) :
    t.toMicros < (get_next_run_time t).toMicros := by
  by_cases h1 : t.toMicros < (sessionStart t).toMicros
  · rw [gnrt_before t h1]
    exact h1
  · by_cases h2 : (sessionEnd t).toMicros < t.toMicros
    · rw [gnrt_after t h2]
      exact nextTradingStart_gt t hv
    · by_cases h3 : (sessionEnd t).toMicros < (candidate t).toMicros
      · rw [gnrt_overflow t (le_of_not_lt h1) (le_of_not_lt h2) h3]
        exact nextTradingStart_gt t hv
      · rw [gnrt_in_window t (le_of_not_lt h1) (le_of_not_lt h2)
          (le_of_not_lt h3)]
        exact candidate_gt t hv

/-- C10 witness: the hypothesis of C10_strict_progress holds at Monday
12:00:00 IST and the statement follows by applying the theorem there. -/
theorem C10_strict_progress_witness :
    (⟨0, 12, 0, 0, 0⟩ : Instant).Valid ∧
    (⟨0, 12, 0, 0, 0⟩ : Instant).toMicros <
      (get_next_run_time ⟨0, 12, 0, 0, 0⟩).toMicros :=
  ⟨by decide, C10_strict_progress ⟨0, 12, 0, 0, 0⟩ (by decide)⟩
